import Mathlib

/-!
Shallow embedding of the `eve_memory_module` SpacetimeDB module
(`src/eve_memory_module/src/lib.rs`): three tables (`EveGlobalEntity`,
`EveGlobalRelation`, `EveGlobalKnowledgeBase`) and four reducers
(`create_entity`, `update_entity`, `create_relation`, `create_knowledge`).

Modelling choices:
* `Timestamp` (microseconds since epoch) is modelled as `Nat`; the implicit
  `Timestamp::now()` of each reducer body becomes an explicit `now` argument.
* Each table is the list of its rows in insertion order.  `insert` enforces
  SpacetimeDB's constraints: it fails when a row with the same `#[primarykey]`
  (or, for `EveGlobalEntity`, the same `#[unique]` `name`) already exists, in
  which case the table is unchanged.  Each Rust reducer discards that result
  (`let _ = ...insert(...)`) and returns `()`, so the reducer itself never
  reports an error to its caller: in the embedding every reducer returns
  `State × Option ReducerError` and the error component is the error the
  reducer surfaces — `none` wherever the source returns `()`.
* `ReducerContext` keeps the caller identity; the source binds it as `_ctx`
  and never reads it.
-/

/-- Timestamp (`spacetimedb::Timestamp`), modelled as a natural number. -/
abbrev Timestamp := Nat

/-- The reducer context supplied by the host: carries the calling
principal's identity.  The source binds it as `_ctx` and never reads it. -/
structure ReducerContext where
  sender : Nat
  deriving DecidableEq, Repr

/-- Row of the Entity table (`EveGlobalEntity` in the source). -/
structure EveGlobalEntity where
  entity_id : String
  name : String
  entity_type : Option String
  data_json : Option String
  embedding_json : Option String
  created_at : Timestamp
  updated_at : Timestamp
  deriving DecidableEq, Repr

/-- Row of the Relation table (`EveGlobalRelation` in the source). -/
structure EveGlobalRelation where
  relation_id : String
  source_entity_id : String
  target_entity_id : String
  relation_type : String
  created_at : Timestamp
  deriving DecidableEq, Repr

/-- Row of the Knowledge Base table (`EveGlobalKnowledgeBase` in the source). -/
structure EveGlobalKnowledgeBase where
  knowledge_id : String
  text_content : String
  embedding_json : Option String
  tags_json : Option String
  source_identifier : Option String
  created_at : Timestamp
  deriving DecidableEq, Repr

/-- The whole store: the three tables of the module. -/
structure State where
  entities : List EveGlobalEntity
  relations : List EveGlobalRelation
  knowledge : List EveGlobalKnowledgeBase
  deriving DecidableEq, Repr

/-- The empty store (no rows in any table). -/
def State.empty : State := ⟨[], [], []⟩

/-- The error taxonomy of the spec's hardened design (§7).  The source's
reducers return `()`, i.e. they surface no error: in the embedding a
reducer's error component is `some e` only if the reducer reports `e`. -/
inductive ReducerError where
  | DuplicateKey
  | NotFound
  | DanglingReference
  deriving DecidableEq, Repr

/-- `EveGlobalEntity::filter_by_entity_id`: point lookup by primary key. -/
def EveGlobalEntity.filter_by_entity_id (tbl : List EveGlobalEntity)
    (entity_id : String) : Option EveGlobalEntity :=
  tbl.find? (fun r => r.entity_id == entity_id)

/-- Whether `EveGlobalEntity::insert` succeeds: it fails iff a row with the
same primary key `entity_id` or the same unique `name` already exists. -/
def EveGlobalEntity.insertOk (tbl : List EveGlobalEntity)
    (row : EveGlobalEntity) : Bool :=
  !(tbl.any (fun r => r.entity_id == row.entity_id || r.name == row.name))

/-- `EveGlobalEntity::insert`: append the row if no primary-key or
unique-`name` conflict, otherwise leave the table unchanged. -/
def EveGlobalEntity.insert (tbl : List EveGlobalEntity)
    (row : EveGlobalEntity) : List EveGlobalEntity :=
  if EveGlobalEntity.insertOk tbl row then tbl ++ [row] else tbl

/-- `EveGlobalEntity::update_by_entity_id`: replace the row(s) whose primary
key equals `entity_id` with `row`. -/
def EveGlobalEntity.update_by_entity_id (tbl : List EveGlobalEntity)
    (entity_id : String) (row : EveGlobalEntity) : List EveGlobalEntity :=
  tbl.map (fun r => if r.entity_id == entity_id then row else r)

/-- Whether `EveGlobalRelation::insert` succeeds: it fails iff a row with the
same primary key `relation_id` already exists. -/
def EveGlobalRelation.insertOk (tbl : List EveGlobalRelation)
    (row : EveGlobalRelation) : Bool :=
  !(tbl.any (fun r => r.relation_id == row.relation_id))

/-- `EveGlobalRelation::insert`. -/
def EveGlobalRelation.insert (tbl : List EveGlobalRelation)
    (row : EveGlobalRelation) : List EveGlobalRelation :=
  if EveGlobalRelation.insertOk tbl row then tbl ++ [row] else tbl

/-- Whether `EveGlobalKnowledgeBase::insert` succeeds: it fails iff a row
with the same primary key `knowledge_id` already exists. -/
def EveGlobalKnowledgeBase.insertOk (tbl : List EveGlobalKnowledgeBase)
    (row : EveGlobalKnowledgeBase) : Bool :=
  !(tbl.any (fun r => r.knowledge_id == row.knowledge_id))

/-- `EveGlobalKnowledgeBase::insert`. -/
def EveGlobalKnowledgeBase.insert (tbl : List EveGlobalKnowledgeBase)
    (row : EveGlobalKnowledgeBase) : List EveGlobalKnowledgeBase :=
  if EveGlobalKnowledgeBase.insertOk tbl row then tbl ++ [row] else tbl

/-- The Record Store's `get_by_primary_key` on the Entity table (spec §4.1);
identical to `EveGlobalEntity::filter_by_entity_id` on the stored table. -/
def get_by_primary_key (s : State) (key : String) : Option EveGlobalEntity :=
  EveGlobalEntity.filter_by_entity_id s.entities key

/-- Reducer `create_entity` (lib.rs lines 44–66): build the row with
`created_at = updated_at = now` and insert it, discarding the insert
result; the reducer returns `()`, i.e. it surfaces no error. -/
def create_entity (_ctx : ReducerContext) (now : Timestamp)
    (entity_id name : String)
    (entity_type data_json embedding_json : Option String)
    (s : State) : State × Option ReducerError :=
  let entity : EveGlobalEntity :=
    { entity_id := entity_id, name := name, entity_type := entity_type,
      data_json := data_json, embedding_json := embedding_json,
      created_at := now, updated_at := now }
  ({ s with entities := EveGlobalEntity.insert s.entities entity }, none)

/-- The row `update_entity` writes back: start from a clone of the stored
row, overwrite each field whose optional argument is present (`if let
Some(x) = arg { clone.field = Some(x) }`), and refresh `updated_at = now`. -/
def updatedRow (entity : EveGlobalEntity)
    (entity_type data_json embedding_json : Option String)
    (now : Timestamp) : EveGlobalEntity :=
  { entity with
    entity_type := match entity_type with
      | some t => some t
      | none => entity.entity_type,
    data_json := match data_json with
      | some d => some d
      | none => entity.data_json,
    embedding_json := match embedding_json with
      | some e => some e
      | none => entity.embedding_json,
    updated_at := now }

/-- Reducer `update_entity` (lib.rs lines 68–98): look the entity up by
primary key; if found, write back the selectively-overwritten clone; if
not found, do nothing.  The reducer returns `()` either way. -/
def update_entity (_ctx : ReducerContext) (now : Timestamp)
    (entity_id : String)
    (entity_type data_json embedding_json : Option String)
    (s : State) : State × Option ReducerError :=
  match EveGlobalEntity.filter_by_entity_id s.entities entity_id with
  | some entity =>
      let entity_clone := updatedRow entity entity_type data_json embedding_json now
      ({ s with entities :=
          EveGlobalEntity.update_by_entity_id s.entities entity_id entity_clone },
        none)
  | none => (s, none)

/-- Reducer `create_relation` (lib.rs lines 101–124): return early (no
change, no error) unless both endpoint entities exist; otherwise insert the
relation row, discarding the insert result. -/
def create_relation (_ctx : ReducerContext) (now : Timestamp)
    (relation_id source_entity_id target_entity_id relation_type : String)
    (s : State) : State × Option ReducerError :=
  if (EveGlobalEntity.filter_by_entity_id s.entities source_entity_id).isNone ||
     (EveGlobalEntity.filter_by_entity_id s.entities target_entity_id).isNone then
    (s, none)
  else
    let relation : EveGlobalRelation :=
      { relation_id := relation_id, source_entity_id := source_entity_id,
        target_entity_id := target_entity_id, relation_type := relation_type,
        created_at := now }
    ({ s with relations := EveGlobalRelation.insert s.relations relation }, none)

/-- Reducer `create_knowledge` (lib.rs lines 127–146): build the row and
insert it, discarding the insert result. -/
def create_knowledge (_ctx : ReducerContext) (now : Timestamp)
    (knowledge_id text_content : String)
    (embedding_json tags_json source_identifier : Option String)
    (s : State) : State × Option ReducerError :=
  let knowledge : EveGlobalKnowledgeBase :=
    { knowledge_id := knowledge_id, text_content := text_content,
      embedding_json := embedding_json, tags_json := tags_json,
      source_identifier := source_identifier, created_at := now }
  ({ s with knowledge := EveGlobalKnowledgeBase.insert s.knowledge knowledge }, none)

/-- A reducer invocation's name and explicit arguments. -/
inductive Op where
  | createEntityOp (entity_id name : String)
      (entity_type data_json embedding_json : Option String)
  | updateEntityOp (entity_id : String)
      (entity_type data_json embedding_json : Option String)
  | createRelationOp
      (relation_id source_entity_id target_entity_id relation_type : String)
  | createKnowledgeOp (knowledge_id text_content : String)
      (embedding_json tags_json source_identifier : Option String)
  deriving DecidableEq, Repr

/-- Whether an operation is an `update_entity` invocation. -/
def Op.isUpdateEntity : Op → Bool
  | .updateEntityOp _ _ _ _ => true
  | _ => false

/-- The state after one reducer invocation. -/
def applyOp (ctx : ReducerContext) (now : Timestamp) (op : Op)
    (s : State) : State :=
  match op with
  | .createEntityOp a b c d e => (create_entity ctx now a b c d e s).1
  | .updateEntityOp a b c d => (update_entity ctx now a b c d s).1
  | .createRelationOp a b c d => (create_relation ctx now a b c d s).1
  | .createKnowledgeOp a b c d e => (create_knowledge ctx now a b c d e s).1

/-- Run a sequence of timestamped reducer invocations from a state. -/
def runFrom (ctx : ReducerContext) : State → List (Timestamp × Op) → State
  | s, [] => s
  | s, (t, op) :: rest => runFrom ctx (applyOp ctx t op s) rest

/-- The timestamps of a trace are nondecreasing and bounded below by `t0`
(the host's clock never goes backwards between invocations). -/
def timesMonoFrom : Timestamp → List (Timestamp × Op) → Prop
  | _, [] => True
  | t0, (t, _) :: rest => t0 ≤ t ∧ timesMonoFrom t rest

/-- An entity with primary key `id` is present in the store. -/
def entityPresent (s : State) (id : String) : Bool :=
  (EveGlobalEntity.filter_by_entity_id s.entities id).isSome

/-- Referential integrity: every relation's endpoints exist in the Entity
table. -/
def RelOk (s : State) : Prop :=
  ∀ rel ∈ s.relations,
    entityPresent s rel.source_entity_id = true ∧
    entityPresent s rel.target_entity_id = true

/-- A fixed caller used to instantiate witnesses. -/
def ctx0 : ReducerContext := ⟨0⟩

/-! ### Basic table lemmas -/

/-- A failing insert leaves the Entity table unchanged. -/
theorem EveGlobalEntity.insert_of_not_ok {tbl : List EveGlobalEntity}
    {row : EveGlobalEntity} (h : EveGlobalEntity.insertOk tbl row = false) :
    EveGlobalEntity.insert tbl row = tbl := by
  simp [EveGlobalEntity.insert, h]

/-- A succeeding insert appends the row. -/
theorem EveGlobalEntity.insert_of_ok {tbl : List EveGlobalEntity}
    {row : EveGlobalEntity} (h : EveGlobalEntity.insertOk tbl row = true) :
    EveGlobalEntity.insert tbl row = tbl ++ [row] := by
  simp [EveGlobalEntity.insert, h]

/-- Looking up the written-back key after `update_by_entity_id` returns the
new row, provided the key was present and the new row keeps that key. -/
theorem EveGlobalEntity.filter_update_self (tbl : List EveGlobalEntity)
    (id : String) (v : EveGlobalEntity) (hv : v.entity_id = id)
    (hs : (EveGlobalEntity.filter_by_entity_id tbl id).isSome = true) :
    EveGlobalEntity.filter_by_entity_id
      (EveGlobalEntity.update_by_entity_id tbl id v) id = some v := by
  induction tbl with
  | nil => simp [EveGlobalEntity.filter_by_entity_id] at hs
  | cons r rest ih =>
    by_cases h : r.entity_id = id
    · simp [EveGlobalEntity.update_by_entity_id,
        EveGlobalEntity.filter_by_entity_id, h, hv]
    · have hb : (r.entity_id == id) = false := by simp [h]
      simp only [EveGlobalEntity.update_by_entity_id, List.map_cons, hb,
        if_false] at *
      simp only [EveGlobalEntity.filter_by_entity_id, List.find?_cons_of_neg,
        hb, Bool.false_eq_true, not_false_iff] at *
      rw [List.find?_cons_of_neg _ (by simp [h])] at hs ⊢
      exact ih hs

/-- `update_by_entity_id` with a row keeping the key preserves presence of
every primary key. -/
theorem EveGlobalEntity.filter_update_isSome (tbl : List EveGlobalEntity)
    (id : String) (v : EveGlobalEntity) (hv : v.entity_id = id) (q : String) :
    (EveGlobalEntity.filter_by_entity_id
        (EveGlobalEntity.update_by_entity_id tbl id v) q).isSome = true ↔
      (EveGlobalEntity.filter_by_entity_id tbl q).isSome = true := by
  simp only [EveGlobalEntity.filter_by_entity_id, List.find?_isSome,
    EveGlobalEntity.update_by_entity_id, List.mem_map, beq_iff_eq]
  constructor
  · rintro ⟨y, ⟨x, hx, rfl⟩, hy⟩
    by_cases h : x.entity_id = id
    · rw [if_pos h] at hy
      exact ⟨x, hx, h.trans (hv.symm.trans hy)⟩
    · rw [if_neg h] at hy
      exact ⟨x, hx, hy⟩
  · rintro ⟨x, hx, hxq⟩
    by_cases h : x.entity_id = id
    · exact ⟨v, ⟨x, hx, by rw [if_pos h]⟩, hv.trans (h.symm.trans hxq)⟩
    · exact ⟨x, ⟨x, hx, by rw [if_neg h]⟩, hxq⟩

/-! ### C6: update of a missing entity is a complete no-op -/

/-- C6: when `entity_id` is absent from the Entity table, `update_entity`
leaves the whole store unchanged and surfaces no error (the source's
`None => ()` branch). -/
theorem update_entity_missing_noop (ctx : ReducerContext) (now : Timestamp)
    (entity_id : String) (entity_type data_json embedding_json : Option String)
    (s : State) (h : get_by_primary_key s entity_id = none) :
    update_entity ctx now entity_id entity_type data_json embedding_json s
      = (s, none) := by
  have h' : EveGlobalEntity.filter_by_entity_id s.entities entity_id = none := h
  simp [update_entity, h']

/-- Witness for C6 at a concrete input: updating `e9` in the empty store
changes nothing. -/
theorem update_entity_missing_noop_witness :
    update_entity ctx0 3 "e9" none (some "d") none State.empty
      = (State.empty, none) :=
  update_entity_missing_noop ctx0 3 "e9" none (some "d") none State.empty rfl

/-! ### C1: relation creation with a missing endpoint -/

/-- C1 counterexample: with both endpoints absent (the empty store),
`create_relation` does not fail with `DanglingReference` — the source
reducer returns `()`, surfacing no error at all. -/
theorem create_relation_no_dangling_error :
    (create_relation ctx0 0 "r1" "e1" "e2" "knows" State.empty).2
      ≠ some ReducerError.DanglingReference := by
  decide

/-- C1 amended: when either endpoint id is absent from the Entity table,
`create_relation` silently does nothing: it surfaces no error and leaves
the whole store unchanged (in particular it inserts no Relation row,
partial or whole, with that `relation_id`). -/
theorem create_relation_missing_endpoint_noop (ctx : ReducerContext)
    (now : Timestamp)
    (relation_id source_entity_id target_entity_id relation_type : String)
    (s : State)
    (h : get_by_primary_key s source_entity_id = none ∨
         get_by_primary_key s target_entity_id = none) :
    create_relation ctx now relation_id source_entity_id target_entity_id
        relation_type s = (s, none) := by
  rcases h with h | h
  · have h' : EveGlobalEntity.filter_by_entity_id s.entities source_entity_id
        = none := h
    simp [create_relation, h']
  · have h' : EveGlobalEntity.filter_by_entity_id s.entities target_entity_id
        = none := h
    simp [create_relation, h']

/-- Witness for the amended C1 at a concrete input. -/
theorem create_relation_missing_endpoint_noop_witness :
    create_relation ctx0 7 "r2" "e1" "e99" "knows" State.empty
      = (State.empty, none) :=
  create_relation_missing_endpoint_noop ctx0 7 "r2" "e1" "e99" "knows"
    State.empty (Or.inl rfl)

/-! ### C4: duplicate-name entity creation -/

/-- C4 counterexample: creating `e2` with the already-used name `Alice`
does not fail with `DuplicateKey` — the source discards the insert result
and the reducer surfaces no error. -/
theorem create_entity_no_duplicate_error :
    (create_entity ctx0 1 "e2" "Alice" none none none
        (create_entity ctx0 0 "e1" "Alice" none none none State.empty).1).2
      ≠ some ReducerError.DuplicateKey := by
  decide

/-- C4 amended: a `create_entity` call whose `name` is already used by some
stored entity is silently dropped: no error is surfaced and the Entity
table (in particular the first entity's row) is left unchanged. -/
theorem create_entity_duplicate_name_dropped (ctx : ReducerContext)
    (now : Timestamp) (entity_id name : String)
    (entity_type data_json embedding_json : Option String)
    (s : State) (e : EveGlobalEntity) (he : e ∈ s.entities)
    (hname : e.name = name) :
    create_entity ctx now entity_id name entity_type data_json embedding_json s
      = (s, none) := by
  have hok : EveGlobalEntity.insertOk s.entities
      { entity_id := entity_id, name := name, entity_type := entity_type,
        data_json := data_json, embedding_json := embedding_json,
        created_at := now, updated_at := now } = false := by
    simp only [EveGlobalEntity.insertOk, Bool.not_eq_false', List.any_eq_true]
    exact ⟨e, he, by simp [hname]⟩
  simp [create_entity, EveGlobalEntity.insert, hok]

/-- Witness for the amended C4 at a concrete input: a second `Alice` with a
different `entity_id` is dropped. -/
theorem create_entity_duplicate_name_dropped_witness :
    create_entity ctx0 1 "e2" "Alice" none none none
        (create_entity ctx0 0 "e1" "Alice" none none none State.empty).1
      = ((create_entity ctx0 0 "e1" "Alice" none none none State.empty).1,
          none) :=
  create_entity_duplicate_name_dropped ctx0 1 "e2" "Alice" none none none
    (create_entity ctx0 0 "e1" "Alice" none none none State.empty).1
    { entity_id := "e1", name := "Alice", entity_type := none,
      data_json := none, embedding_json := none,
      created_at := 0, updated_at := 0 }
    (by decide) rfl

/-! ### C10: reducers never read the caller identity -/

/-- C10: every reducer is independent of the calling principal — two
invocations differing only in the `ReducerContext` produce identical
stores (the source binds the context as `_ctx` and never reads it). -/
theorem applyOp_caller_independent (ctx₁ ctx₂ : ReducerContext)
    (now : Timestamp) (op : Op) (s : State) :
    applyOp ctx₁ now op s = applyOp ctx₂ now op s := by
  cases op <;> rfl

/-! ### C3: create then read back -/

/-- C3: when neither `entity_id` nor `name` is already present,
`create_entity` followed by a primary-key lookup of `entity_id` returns a
row whose fields equal the supplied arguments and whose `created_at`
equals its `updated_at` (both are `now`). -/
theorem create_entity_then_get (ctx : ReducerContext) (now : Timestamp)
    (entity_id name : String)
    (entity_type data_json embedding_json : Option String) (s : State)
    (hid : ∀ e ∈ s.entities, ¬ e.entity_id = entity_id)
    (hnm : ∀ e ∈ s.entities, ¬ e.name = name) :
    get_by_primary_key
        (create_entity ctx now entity_id name entity_type data_json
          embedding_json s).1 entity_id =
      some { entity_id := entity_id, name := name, entity_type := entity_type,
             data_json := data_json, embedding_json := embedding_json,
             created_at := now, updated_at := now } := by
  have hok : EveGlobalEntity.insertOk s.entities
      { entity_id := entity_id, name := name, entity_type := entity_type,
        data_json := data_json, embedding_json := embedding_json,
        created_at := now, updated_at := now } = true := by
    simp only [EveGlobalEntity.insertOk, Bool.not_eq_true', List.any_eq_false]
    intro x hx
    simp [hid x hx, hnm x hx]
  have h1 : List.find? (fun r => r.entity_id == entity_id) s.entities
      = none :=
    List.find?_eq_none.mpr (fun x hx => by simp [hid x hx])
  simp only [get_by_primary_key, create_entity]
  rw [EveGlobalEntity.insert_of_ok hok]
  simp only [EveGlobalEntity.filter_by_entity_id, List.find?_append, h1]
  simp

/-- Witness for C3 at a concrete input. -/
theorem create_entity_then_get_witness :
    get_by_primary_key
        (create_entity ctx0 5 "e1" "Alice" (some "person") none none
          State.empty).1 "e1" =
      some { entity_id := "e1", name := "Alice", entity_type := some "person",
             data_json := none, embedding_json := none,
             created_at := 5, updated_at := 5 } :=
  create_entity_then_get ctx0 5 "e1" "Alice" (some "person") none none
    State.empty (by simp [State.empty]) (by simp [State.empty])

/-! ### C5: data-only update -/

/-- C5: updating an existing entity with only `data_json` supplied leaves
`entity_type` and `embedding_json` unchanged, overwrites `data_json`, and
sets `updated_at` to the invocation time `now`, which is strictly greater
than the prior `updated_at` whenever the clock has advanced past it. -/
theorem update_entity_data_only (ctx : ReducerContext) (now : Timestamp)
    (entity_id d : String) (s : State) (e : EveGlobalEntity)
    (he : get_by_primary_key s entity_id = some e)
    (ht : e.updated_at < now) :
    ∃ e', get_by_primary_key
        (update_entity ctx now entity_id none (some d) none s).1 entity_id
          = some e' ∧
      e'.entity_type = e.entity_type ∧
      e'.embedding_json = e.embedding_json ∧
      e'.data_json = some d ∧
      e.updated_at < e'.updated_at := by
  have he' : EveGlobalEntity.filter_by_entity_id s.entities entity_id
      = some e := he
  have hkey : (updatedRow e none (some d) none now).entity_id = entity_id := by
    have hb := List.find?_some he'
    simpa [updatedRow] using hb
  refine ⟨updatedRow e none (some d) none now, ?_, rfl, rfl, rfl, ht⟩
  simp only [get_by_primary_key, update_entity, he']
  exact EveGlobalEntity.filter_update_self s.entities entity_id _ hkey
    (by rw [he']; rfl)

/-- Witness for C5 at a concrete input. -/
theorem update_entity_data_only_witness :
    ∃ e', get_by_primary_key
        (update_entity ctx0 5 "e1" none (some "newdata") none
          (State.mk
            [{ entity_id := "e1", name := "Alice",
               entity_type := some "person", data_json := some "olddata",
               embedding_json := some "emb", created_at := 1,
               updated_at := 2 }] [] [])).1 "e1" = some e' ∧
      e'.entity_type = some "person" ∧
      e'.embedding_json = some "emb" ∧
      e'.data_json = some "newdata" ∧
      (2 : Timestamp) < e'.updated_at :=
  update_entity_data_only ctx0 5 "e1" "newdata"
    (State.mk
      [{ entity_id := "e1", name := "Alice", entity_type := some "person",
         data_json := some "olddata", embedding_json := some "emb",
         created_at := 1, updated_at := 2 }] [] [])
    { entity_id := "e1", name := "Alice", entity_type := some "person",
      data_json := some "olddata", embedding_json := some "emb",
      created_at := 1, updated_at := 2 }
    (by decide) (by decide)

/-! ### C8: update never touches the key, the name or `created_at` -/

/-- C8: for an existing entity, any `update_entity` call leaves the stored
`created_at`, `entity_id` and `name` identical to their prior values. -/
theorem update_entity_preserves_identity (ctx : ReducerContext)
    (now : Timestamp) (entity_id : String)
    (entity_type data_json embedding_json : Option String)
    (s : State) (e : EveGlobalEntity)
    (he : get_by_primary_key s entity_id = some e) :
    ∃ e', get_by_primary_key
        (update_entity ctx now entity_id entity_type data_json
          embedding_json s).1 entity_id = some e' ∧
      e'.created_at = e.created_at ∧
      e'.entity_id = e.entity_id ∧
      e'.name = e.name := by
  have he' : EveGlobalEntity.filter_by_entity_id s.entities entity_id
      = some e := he
  have hkey : (updatedRow e entity_type data_json embedding_json now).entity_id
      = entity_id := by
    have hb := List.find?_some he'
    simpa [updatedRow] using hb
  refine ⟨updatedRow e entity_type data_json embedding_json now, ?_, rfl,
    rfl, rfl⟩
  simp only [get_by_primary_key, update_entity, he']
  exact EveGlobalEntity.filter_update_self s.entities entity_id _ hkey
    (by rw [he']; rfl)

/-- Witness for C8 at a concrete input. -/
theorem update_entity_preserves_identity_witness :
    ∃ e', get_by_primary_key
        (update_entity ctx0 9 "e1" (some "robot") (some "d2") (some "emb2")
          (State.mk
            [{ entity_id := "e1", name := "Alice",
               entity_type := some "person", data_json := none,
               embedding_json := none, created_at := 1,
               updated_at := 2 }] [] [])).1 "e1" = some e' ∧
      e'.created_at = 1 ∧
      e'.entity_id = "e1" ∧
      e'.name = "Alice" :=
  update_entity_preserves_identity ctx0 9 "e1" (some "robot") (some "d2")
    (some "emb2")
    (State.mk
      [{ entity_id := "e1", name := "Alice", entity_type := some "person",
         data_json := none, embedding_json := none, created_at := 1,
         updated_at := 2 }] [] [])
    { entity_id := "e1", name := "Alice", entity_type := some "person",
      data_json := none, embedding_json := none, created_at := 1,
      updated_at := 2 }
    (by decide)

/-! ### Reachability machinery: entity presence is monotone -/

/-- Appending rows preserves presence of a primary key. -/
theorem EveGlobalEntity.filter_append_isSome (tbl extra : List EveGlobalEntity)
    (q : String)
    (h : (EveGlobalEntity.filter_by_entity_id tbl q).isSome = true) :
    (EveGlobalEntity.filter_by_entity_id (tbl ++ extra) q).isSome = true := by
  simp only [EveGlobalEntity.filter_by_entity_id, List.find?_isSome,
    List.mem_append] at *
  obtain ⟨x, hx, hp⟩ := h
  exact ⟨x, Or.inl hx, hp⟩

/-- No reducer deletes entities: an entity present before an invocation is
present after it. -/
theorem entityPresent_applyOp (ctx : ReducerContext) (now : Timestamp)
    (op : Op) (s : State) (id : String) (h : entityPresent s id = true) :
    entityPresent (applyOp ctx now op s) id = true := by
  cases op with
  | createEntityOp a b c d e =>
    simp only [applyOp, create_entity, entityPresent, EveGlobalEntity.insert]
    split
    · exact EveGlobalEntity.filter_append_isSome _ _ _ h
    · exact h
  | updateEntityOp a b c d =>
    simp only [applyOp, update_entity]
    cases hf : EveGlobalEntity.filter_by_entity_id s.entities a with
    | none => exact h
    | some entity =>
      have hkey : (updatedRow entity b c d now).entity_id = a := by
        have hb := List.find?_some hf
        simpa [updatedRow] using hb
      simp only [entityPresent]
      exact (EveGlobalEntity.filter_update_isSome s.entities a _ hkey id).mpr h
  | createRelationOp a b c d =>
    simp only [applyOp, create_relation]
    split
    · exact h
    · exact h
  | createKnowledgeOp a b c d e =>
    exact h

/-- Membership after a relation insert. -/
theorem EveGlobalRelation.mem_insert {tbl : List EveGlobalRelation}
    {row rel : EveGlobalRelation}
    (h : rel ∈ EveGlobalRelation.insert tbl row) : rel ∈ tbl ∨ rel = row := by
  unfold EveGlobalRelation.insert at h
  split at h
  · rcases List.mem_append.mp h with h | h
    · exact Or.inl h
    · exact Or.inr (List.mem_singleton.mp h)
  · exact Or.inl h

/-- Any relation row present after an invocation was either already present
or was just inserted with both endpoints present in the pre-state. -/
theorem applyOp_relations_cases (ctx : ReducerContext) (now : Timestamp)
    (op : Op) (s : State) :
    ∀ rel ∈ (applyOp ctx now op s).relations,
      rel ∈ s.relations ∨
        (entityPresent s rel.source_entity_id = true ∧
         entityPresent s rel.target_entity_id = true) := by
  cases op with
  | createEntityOp a b c d e => exact fun rel hrel => Or.inl hrel
  | updateEntityOp a b c d =>
    simp only [applyOp, update_entity]
    cases hf : EveGlobalEntity.filter_by_entity_id s.entities a with
    | none => exact fun rel hrel => Or.inl hrel
    | some entity => exact fun rel hrel => Or.inl hrel
  | createRelationOp a b c d =>
    simp only [applyOp, create_relation]
    split
    · exact fun rel hrel => Or.inl hrel
    · rename_i hcond
      intro rel hrel
      rcases EveGlobalRelation.mem_insert hrel with hm | hnew
      · exact Or.inl hm
      · right
        rw [hnew]
        constructor
        · cases hs : EveGlobalEntity.filter_by_entity_id s.entities b with
          | none => exact absurd (by simp [hs]) hcond
          | some x => simp [entityPresent, hs]
        · cases hs : EveGlobalEntity.filter_by_entity_id s.entities c with
          | none => exact absurd (by simp [hs]) hcond
          | some x => simp [entityPresent, hs]
  | createKnowledgeOp a b c d e => exact fun rel hrel => Or.inl hrel

/-- C2 step: referential integrity is preserved by every reducer. -/
theorem RelOk_applyOp (ctx : ReducerContext) (now : Timestamp) (op : Op)
    (s : State) (h : RelOk s) : RelOk (applyOp ctx now op s) := by
  intro rel hrel
  rcases applyOp_relations_cases ctx now op s rel hrel with hm | ⟨h1, h2⟩
  · obtain ⟨h1, h2⟩ := h rel hm
    exact ⟨entityPresent_applyOp ctx now op s _ h1,
      entityPresent_applyOp ctx now op s _ h2⟩
  · exact ⟨entityPresent_applyOp ctx now op s _ h1,
      entityPresent_applyOp ctx now op s _ h2⟩

/-- C2: in every state reachable from the empty store by any sequence of the
four reducers, every relation's `source_entity_id` and `target_entity_id`
refer to entities present in the Entity table. -/
theorem relations_referentially_intact (ctx : ReducerContext)
    (l : List (Timestamp × Op)) : RelOk (runFrom ctx State.empty l) := by
  have aux : ∀ (l' : List (Timestamp × Op)) (s : State),
      RelOk s → RelOk (runFrom ctx s l') := by
    intro l'
    induction l' with
    | nil => exact fun s h => h
    | cons p rest ih =>
      obtain ⟨t, op⟩ := p
      intro s h
      simp only [runFrom]
      exact ih _ (RelOk_applyOp ctx t op s h)
  apply aux
  intro rel hrel
  simp [State.empty] at hrel

/-! ### C7: `updated_at >= created_at` in all reachable states -/

/-- Rows of the Entity table are time-consistent and bounded by clock `t`. -/
def EntOk (s : State) (t : Timestamp) : Prop :=
  ∀ e ∈ s.entities, e.created_at ≤ e.updated_at ∧ e.updated_at ≤ t

/-- Any entity row present after an invocation is either an old row, a
freshly created row with `created_at = updated_at = now`, or a rewritten
row keeping some old row's `created_at` with `updated_at = now`. -/
theorem applyOp_entities_cases (ctx : ReducerContext) (now : Timestamp)
    (op : Op) (s : State) :
    ∀ e ∈ (applyOp ctx now op s).entities,
      e ∈ s.entities ∨
        (e.created_at = now ∧ e.updated_at = now) ∨
        (∃ e0 ∈ s.entities, e.created_at = e0.created_at ∧
          e.updated_at = now) := by
  cases op with
  | createEntityOp a b c d e =>
    simp only [applyOp, create_entity, EveGlobalEntity.insert]
    split
    · intro x hx
      rcases List.mem_append.mp hx with hx | hx
      · exact Or.inl hx
      · rw [List.mem_singleton.mp hx]
        exact Or.inr (Or.inl ⟨rfl, rfl⟩)
    · exact fun x hx => Or.inl hx
  | updateEntityOp a b c d =>
    simp only [applyOp, update_entity]
    cases hf : EveGlobalEntity.filter_by_entity_id s.entities a with
    | none => exact fun x hx => Or.inl hx
    | some entity =>
      intro x hx
      simp only [EveGlobalEntity.update_by_entity_id] at hx
      rcases List.mem_map.mp hx with ⟨r, hr, hre⟩
      by_cases hc : (r.entity_id == a) = true
      · rw [if_pos hc] at hre
        have hmem : entity ∈ s.entities := List.mem_of_find?_eq_some hf
        exact Or.inr (Or.inr ⟨entity, hmem, by rw [← hre]; exact ⟨rfl, rfl⟩⟩)
      · rw [if_neg hc] at hre
        rw [← hre]
        exact Or.inl hr
  | createRelationOp a b c d =>
    simp only [applyOp, create_relation]
    split
    · exact fun x hx => Or.inl hx
    · exact fun x hx => Or.inl hx
  | createKnowledgeOp a b c d e =>
    exact fun x hx => Or.inl hx

/-- C7 step: a reducer invoked at a time `t'` not before the previous clock
bound `t` preserves time-consistency, with the new bound `t'`. -/
theorem EntOk_applyOp (ctx : ReducerContext) (t t' : Timestamp) (op : Op)
    (s : State) (htt : t ≤ t') (h : EntOk s t) :
    EntOk (applyOp ctx t' op s) t' := by
  intro e he
  rcases applyOp_entities_cases ctx t' op s e he with hm | ⟨hc, hu⟩ | ⟨e0, hm, hc, hu⟩
  · obtain ⟨h1, h2⟩ := h e hm
    exact ⟨h1, h2.trans htt⟩
  · rw [hc, hu]
    exact ⟨le_refl _, le_refl _⟩
  · obtain ⟨h1, h2⟩ := h e0 hm
    rw [hc, hu]
    exact ⟨h1.trans (h2.trans htt), le_refl _⟩

/-- Running a clock-monotone trace from a time-consistent state yields a
time-consistent state (with some final clock bound). -/
theorem EntOk_runFrom (ctx : ReducerContext) :
    ∀ (l : List (Timestamp × Op)) (t0 : Timestamp) (s : State),
      timesMonoFrom t0 l → EntOk s t0 →
      ∃ t1, EntOk (runFrom ctx s l) t1 := by
  intro l
  induction l with
  | nil => exact fun t0 s _ h => ⟨t0, h⟩
  | cons p rest ih =>
    obtain ⟨t, op⟩ := p
    intro t0 s hmono h
    obtain ⟨ht, hrest⟩ := hmono
    simp only [runFrom]
    exact ih t (applyOp ctx t op s) hrest (EntOk_applyOp ctx t0 t op s ht h)

/-- C7: starting from the empty store and running any clock-monotone
sequence of reducer invocations, every Entity row satisfies
`created_at ≤ updated_at` (`create_entity` establishes equality and
`update_entity` only moves `updated_at` forward). -/
theorem entity_timestamps_ordered (ctx : ReducerContext)
    (l : List (Timestamp × Op)) (hmono : timesMonoFrom 0 l) :
    ∀ e ∈ (runFrom ctx State.empty l).entities,
      e.created_at ≤ e.updated_at := by
  obtain ⟨t1, h⟩ := EntOk_runFrom ctx l 0 State.empty hmono
    (by intro e he; simp [State.empty] at he)
  exact fun e he => (h e he).1

/-- Witness for C7 at a concrete trace: create then update, with the clock
advancing. -/
theorem entity_timestamps_ordered_witness :
    timesMonoFrom 0
        [((1 : Timestamp), Op.createEntityOp "e1" "Alice" none none none),
         ((2 : Timestamp), Op.updateEntityOp "e1" none (some "d") none)] ∧
      ({ entity_id := "e1", name := "Alice", entity_type := none,
         data_json := some "d", embedding_json := none,
         created_at := 1, updated_at := 2 } : EveGlobalEntity).created_at ≤
        ({ entity_id := "e1", name := "Alice", entity_type := none,
           data_json := some "d", embedding_json := none,
           created_at := 1, updated_at := 2 } : EveGlobalEntity).updated_at :=
  ⟨by simp [timesMonoFrom],
    entity_timestamps_ordered ctx0
      [((1 : Timestamp), Op.createEntityOp "e1" "Alice" none none none),
       ((2 : Timestamp), Op.updateEntityOp "e1" none (some "d") none)]
      (by simp [timesMonoFrom])
      { entity_id := "e1", name := "Alice", entity_type := none,
        data_json := some "d", embedding_json := none,
        created_at := 1, updated_at := 2 }
      (by decide)⟩

/-! ### C9: optional fields never return from `Some` to `None` -/

/-- Generic step-and-run lemma for C9: for any optional field read by `f`
that `updatedRow` can only keep or overwrite with a present value, a trace
consisting solely of `update_entity` invocations preserves "every row with
primary key `p` has the field present". -/
theorem fieldSome_runFrom (ctx : ReducerContext)
    (f : EveGlobalEntity → Option String)
    (hf : ∀ (entity : EveGlobalEntity) (ty dj ej : Option String)
      (t : Timestamp), (f entity).isSome = true →
      (f (updatedRow entity ty dj ej t)).isSome = true) :
    ∀ (l : List (Timestamp × Op)),
      (∀ x ∈ l, x.2.isUpdateEntity = true) →
      ∀ (p : String) (s : State),
        (∀ e ∈ s.entities, e.entity_id = p → (f e).isSome = true) →
        ∀ e ∈ (runFrom ctx s l).entities, e.entity_id = p →
          (f e).isSome = true := by
  intro l
  induction l with
  | nil => exact fun _ p s hs => hs
  | cons x rest ih =>
    obtain ⟨t, op⟩ := x
    intro hl p s hs
    have hop : op.isUpdateEntity = true := hl (t, op) (List.mem_cons_self _ _)
    simp only [runFrom]
    apply ih (fun y hy => hl y (List.mem_cons_of_mem _ hy)) p
    cases op with
    | createEntityOp a b c d e => exact (Bool.false_ne_true hop).elim
    | createRelationOp a b c d => exact (Bool.false_ne_true hop).elim
    | createKnowledgeOp a b c d e => exact (Bool.false_ne_true hop).elim
    | updateEntityOp id ty dj ej =>
      intro e he hep
      simp only [applyOp, update_entity] at he
      cases hfind : EveGlobalEntity.filter_by_entity_id s.entities id with
      | none =>
        simp only [hfind] at he
        exact hs e he hep
      | some entity =>
        simp only [hfind, EveGlobalEntity.update_by_entity_id] at he
        rcases List.mem_map.mp he with ⟨r, hr, hre⟩
        by_cases hc : (r.entity_id == id) = true
        · rw [if_pos hc] at hre
          have hmem : entity ∈ s.entities := List.mem_of_find?_eq_some hfind
          have hpk : entity.entity_id = p := by
            have : (updatedRow entity ty dj ej t).entity_id = p := by
              rw [hre]; exact hep
            exact this
          rw [← hre]
          exact hf entity ty dj ej t (hs entity hmem hpk)
        · rw [if_neg hc] at hre
          rw [← hre] at hep ⊢
          exact hs r hr hep

/-- C9: over any trace consisting solely of `update_entity` invocations,
each of the three optional Entity fields is monotone from absent to
present — once every row with primary key `p` holds `Some` in a field, no
such trace can return that field to `None` (a present optional argument is
always re-wrapped as `Some` before being stored, and an absent one leaves
the stored value untouched). -/
theorem update_entity_fields_monotone (ctx : ReducerContext)
    (l : List (Timestamp × Op)) (p : String) (s : State)
    (hl : ∀ x ∈ l, x.2.isUpdateEntity = true) :
    ((∀ e ∈ s.entities, e.entity_id = p → e.entity_type.isSome = true) →
      ∀ e ∈ (runFrom ctx s l).entities, e.entity_id = p →
        e.entity_type.isSome = true) ∧
    ((∀ e ∈ s.entities, e.entity_id = p → e.data_json.isSome = true) →
      ∀ e ∈ (runFrom ctx s l).entities, e.entity_id = p →
        e.data_json.isSome = true) ∧
    ((∀ e ∈ s.entities, e.entity_id = p → e.embedding_json.isSome = true) →
      ∀ e ∈ (runFrom ctx s l).entities, e.entity_id = p →
        e.embedding_json.isSome = true) := by
  refine ⟨fun hs => ?_, fun hs => ?_, fun hs => ?_⟩
  · exact fieldSome_runFrom ctx (fun e => e.entity_type)
      (fun entity ty dj ej t h => by
        cases ty with
        | some v => rfl
        | none => exact h)
      l hl p s hs
  · exact fieldSome_runFrom ctx (fun e => e.data_json)
      (fun entity ty dj ej t h => by
        cases dj with
        | some v => rfl
        | none => exact h)
      l hl p s hs
  · exact fieldSome_runFrom ctx (fun e => e.embedding_json)
      (fun entity ty dj ej t h => by
        cases ej with
        | some v => rfl
        | none => exact h)
      l hl p s hs

/-- Witness for C9 at a concrete trace: one `update_entity` call supplying
no optional argument keeps all three fields present. -/
theorem update_entity_fields_monotone_witness :
    (Option.isSome (some "t") = true) ∧
      (Option.isSome (some "d") = true) ∧
      (Option.isSome (some "em") = true) :=
  ⟨(update_entity_fields_monotone ctx0
      [((5 : Timestamp), Op.updateEntityOp "e1" none none none)] "e1"
      (State.mk
        [{ entity_id := "e1", name := "A", entity_type := some "t",
           data_json := some "d", embedding_json := some "em",
           created_at := 0, updated_at := 0 }] [] [])
      (by simp [Op.isUpdateEntity])).1
    (by decide)
    { entity_id := "e1", name := "A", entity_type := some "t",
      data_json := some "d", embedding_json := some "em",
      created_at := 0, updated_at := 5 }
    (by decide) rfl,
   (update_entity_fields_monotone ctx0
      [((5 : Timestamp), Op.updateEntityOp "e1" none none none)] "e1"
      (State.mk
        [{ entity_id := "e1", name := "A", entity_type := some "t",
           data_json := some "d", embedding_json := some "em",
           created_at := 0, updated_at := 0 }] [] [])
      (by simp [Op.isUpdateEntity])).2.1
    (by decide)
    { entity_id := "e1", name := "A", entity_type := some "t",
      data_json := some "d", embedding_json := some "em",
      created_at := 0, updated_at := 5 }
    (by decide) rfl,
   (update_entity_fields_monotone ctx0
      [((5 : Timestamp), Op.updateEntityOp "e1" none none none)] "e1"
      (State.mk
        [{ entity_id := "e1", name := "A", entity_type := some "t",
           data_json := some "d", embedding_json := some "em",
           created_at := 0, updated_at := 0 }] [] [])
      (by simp [Op.isUpdateEntity])).2.2
    (by decide)
    { entity_id := "e1", name := "A", entity_type := some "t",
      data_json := some "d", embedding_json := some "em",
      created_at := 0, updated_at := 5 }
    (by decide) rfl⟩
